import Mathlib

/-!
Verification development for the `wbdata.fetcher` module: a shallow
embedding, in Lean 4, of the module's cache, transport, page-fetch and
pagination code, together with theorems settling the specified properties.

The embedding models:
* JSON values (`JVal`) as produced by `json.loads` (integer numerals only;
  the claims under study never involve floating point);
* the relevant fragment of Python's dynamic semantics: subscripting,
  `in`-membership, iteration, `int()` conversion, `==` comparison (with the
  bool/int coercion), `str.strip()`, and the exception classes that the
  source code catches or lets propagate (`PyErr`);
* the `Cache` class (load-with-expiry, `__getitem__`, `__setitem__`/`sync`);
* `get_json_from_url` (bounded retry over an abstract transport);
* `get_response` (cache-consulting page fetch, threading explicit state);
* `fetch` (the pagination loop, fuelled since the Python `while` loop has
  no termination guard, plus the post-loop id-trimming and
  `lastupdated` parsing steps).
-/

set_option maxRecDepth 4096

/-- Python exception classes distinguished by the fetcher's `try`/`except`
blocks.  `runtimeError` carries the formatted message string. -/
inductive PyErr where
  | indexError
  | keyError
  | typeError
  | valueError
  | attributeError
  | ioError
  | eofError
  | unpicklingError
  | nameError
  | runtimeError (msg : String)
  deriving DecidableEq, Repr

/-- JSON values as returned by `json.loads`: `null`, booleans, (integer)
numbers, strings, arrays, and objects with string keys in document order. -/
inductive JVal where
  | null
  | bool (b : Bool)
  | num (n : Int)
  | str (s : String)
  | arr (elems : List JVal)
  | obj (fields : List (String × JVal))
  deriving Repr

mutual

/-- Python `==` on JSON-decoded values: numbers and booleans compare by
numeric value (`True == 1`), strings by content, lists elementwise, dicts
fieldwise (our dicts come from `json.loads`, which yields a deterministic
field order, so pairwise comparison is adequate here), and values of
unrelated classes are unequal. -/
def pyEq : JVal → JVal → Bool
  | .null, .null => true
  | .bool a, .bool b => a == b
  | .bool a, .num b => (if a then (1 : Int) else 0) == b
  | .num a, .bool b => a == (if b then (1 : Int) else 0)
  | .num a, .num b => a == b
  | .str a, .str b => a == b
  | .arr xs, .arr ys => pyEqList xs ys
  | .obj xs, .obj ys => pyEqFields xs ys
  | _, _ => false

/-- Elementwise `pyEq` on lists. -/
def pyEqList : List JVal → List JVal → Bool
  | [], [] => true
  | x :: xs, y :: ys => pyEq x y && pyEqList xs ys
  | _, _ => false

/-- Pairwise `pyEq` on key/value field lists. -/
def pyEqFields : List (String × JVal) → List (String × JVal) → Bool
  | [], [] => true
  | (k1, v1) :: xs, (k2, v2) :: ys => k1 == k2 && pyEq v1 v2 && pyEqFields xs ys
  | _, _ => false

end

mutual

/-- A rendering of a JSON-decoded value in Python `repr` style, modelling
`pprint.pformat` as used by the "unexpected response" diagnostic dump. -/
def pformatVal : JVal → String
  | .null => "None"
  | .bool b => if b then "True" else "False"
  | .num n => toString n
  | .str s => "'" ++ s ++ "'"
  | .arr xs => "[" ++ pformatList xs ++ "]"
  | .obj fs => "\x7b" ++ pformatFields fs ++ "\x7d"

/-- Comma-separated rendering of array elements. -/
def pformatList : List JVal → String
  | [] => ""
  | [x] => pformatVal x
  | x :: xs => pformatVal x ++ ", " ++ pformatList xs

/-- Comma-separated rendering of object fields. -/
def pformatFields : List (String × JVal) → String
  | [] => ""
  | [(k, v)] => "'" ++ k ++ "': " ++ pformatVal v
  | (k, v) :: fs => "'" ++ k ++ "': " ++ pformatVal v ++ ", " ++ pformatFields fs

end

/-- Python `str()` of a JSON-decoded value, as used by `str.format`
substitution: strings are inserted verbatim, everything else by its repr. -/
def pyStr : JVal → String
  | .str s => s
  | v => pformatVal v

/-- First-match lookup in an association list of string-keyed fields,
modelling Python dict lookup (`json.loads` and our own updates never
produce duplicate keys). -/
def lookupField : List (String × JVal) → String → Option JVal
  | [], _ => none
  | (k, v) :: rest, key => if k = key then some v else lookupField rest key

/-- Python dict item assignment `d[key] = v`: overwrite in place if the key
is present, else append a new binding at the end (insertion order). -/
def setArg : List (String × JVal) → String → JVal → List (String × JVal)
  | [], key, v => [(key, v)]
  | (k, w) :: rest, key, v =>
    if k = key then (k, v) :: rest else (k, w) :: setArg rest key v

/-- Python integer subscript `v[i]` for a non-negative literal index:
lists index (IndexError when out of range), strings index to a
one-character string, dicts raise KeyError (an integer key is absent from
a string-keyed JSON dict), and other classes raise TypeError. -/
def pySubInt : JVal → Nat → Except PyErr JVal
  | .arr xs, i =>
    match xs[i]? with
    | some v => .ok v
    | none => .error .indexError
  | .str s, i =>
    match s.toList[i]? with
    | some c => .ok (.str (String.mk [c]))
    | none => .error .indexError
  | .obj _, _ => .error .keyError
  | _, _ => .error .typeError

/-- Python string subscript `v[key]`: dict lookup (KeyError when absent);
lists and strings reject a string index with TypeError, as do the
remaining classes. -/
def pySubStr : JVal → String → Except PyErr JVal
  | .obj fs, key =>
    match lookupField fs key with
    | some v => .ok v
    | none => .error .keyError
  | _, _ => .error .typeError

/-- Python iteration as consumed by `list.extend`: lists yield their
elements, strings their characters, dicts their keys; other classes raise
TypeError. -/
def pyIter : JVal → Except PyErr (List JVal)
  | .arr xs => .ok xs
  | .str s => .ok (s.toList.map (fun c => .str (String.mk [c])))
  | .obj fs => .ok (fs.map (fun p => .str p.1))
  | _ => .error .typeError

/-- Python `int()` conversion: ints pass through, booleans coerce, strings
parse as a (sign-prefixed, whitespace-trimmed) integer literal or raise
ValueError, everything else raises TypeError. -/
def pyToInt : JVal → Except PyErr Int
  | .num n => .ok n
  | .bool b => .ok (if b then 1 else 0)
  | .str s =>
    match (s.trim).toInt? with
    | some n => .ok n
    | none => .error .valueError
  | _ => .error .typeError

/-- The whitespace set trimmed by Python's `str.strip()`. -/
def isPySpace (c : Char) : Bool :=
  c == ' ' || c == '\t' || c == '\n' || c == '\r' || c == '\x0B' || c == '\x0C'

/-- Python `str.strip()`: drop leading and trailing whitespace. -/
def pyStrip (s : String) : String :=
  String.mk (((s.toList.dropWhile isPySpace).reverse.dropWhile isPySpace).reverse)

/-- List membership up to `pyEq`, modelling Python `x in someList`. -/
def pyElem (xs : List JVal) (v : JVal) : Bool :=
  xs.any (fun x => pyEq x v)

/-- Character-list prefix test (helper for substring membership). -/
def startsWithL : List Char → List Char → Bool
  | [], _ => true
  | _ :: _, [] => false
  | p :: ps, c :: cs => p == c && startsWithL ps cs

/-- Character-list substring test (helper for Python `sub in string`). -/
def hasSubL (pat : List Char) : List Char → Bool
  | [] => pat.isEmpty
  | l@(_ :: cs) => startsWithL pat l || hasSubL pat cs

/-- Python `key in v`: dict key membership, list membership under `==`,
substring test on strings; other classes raise TypeError. -/
def pyContains (v : JVal) (key : String) : Except PyErr Bool :=
  match v with
  | .obj fs => .ok (lookupField fs key).isSome
  | .arr xs => .ok (pyElem xs (.str key))
  | .str s => .ok (hasSubL key.toList s.toList)
  | _ => .error .typeError

/- ## Module constants (`fetcher.py` lines 18-21) -/

/-- `EXP = 7`: cache time-to-live in days. -/
def EXP : Nat := 7

/-- `PER_PAGE = 1000`: fixed page size sent with every request. -/
def PER_PAGE : Int := 1000

/-- `TRIES = 5`: maximum GET attempts per `get_json_from_url` call. -/
def TRIES : Nat := 5

/- ## Transport: `get_json_from_url` (`fetcher.py` lines 69-83)

The HTTP client is abstracted as a map from the attempt index to the
outcome of `requests.get(url, args).text` for that attempt. -/

/-- Outcome of one `requests.get(url, args).text` attempt:
a `requests.ConnectionError`, some other exception, or a body string. -/
inductive AttemptResult where
  | connFail
  | otherFail (e : PyErr)
  | success (body : String)
  deriving DecidableEq, Repr

/-- Observable behaviour of `get_json_from_url`: the body of the first
successful attempt (with the number of attempts consumed), the
connectivity failure after exhausting all tries (carrying the
`logging.error` message and the `RuntimeError` message, plus the number of
attempts made), or a non-connectivity exception propagating uncaught. -/
inductive JsonFetchResult where
  | ok (body : String) (attempts : Nat)
  | connectivityError (logMsg : String) (excMsg : String) (attempts : Nat)
  | raised (e : PyErr) (attempts : Nat)
  deriving DecidableEq, Repr

/-- Number of GET attempts a `get_json_from_url` run performed. -/
def JsonFetchResult.attemptsMade : JsonFetchResult → Nat
  | .ok _ n => n
  | .connectivityError _ _ n => n
  | .raised _ n => n

/-- The retry loop `for i in range(TRIES)` of `get_json_from_url`:
`fuel` tries remain and `used` attempts were already consumed.  A
`ConnectionError` is swallowed by `continue`; any other exception
propagates; on exhaustion the function logs the URL and raises
`RuntimeError("Couldn't connect to API")`. -/
def gjfuGo (transport : Nat → AttemptResult) (url : String) :
    Nat → Nat → JsonFetchResult
  | 0, used =>
    .connectivityError ("Error connecting to " ++ url) "Couldn't connect to API" used
  | fuel + 1, used =>
    match transport used with
    | .success b => .ok b (used + 1)
    | .otherFail e => .raised e (used + 1)
    | .connFail => gjfuGo transport url fuel (used + 1)

/-- `get_json_from_url(url, args)`: up to `TRIES` attempts of the retry
loop, starting from attempt 0. -/
def get_json_from_url (transport : Nat → AttemptResult) (url : String) :
    JsonFetchResult :=
  gjfuGo transport url TRIES 0

/- ## Cache (`fetcher.py` lines 30-66)

The pickle file on disk is abstracted as a `FileState`; its possible
load outcomes mirror `self.path.open("rb")` plus `pickle.load`:
a missing or unreadable file raises `IOError`, an empty/truncated file
raises `EOFError`, otherwise-corrupt bytes raise
`pickle.UnpicklingError`, and a well-formed pickle yields a store. -/

/-- A cache key: `(url, tuple(sorted(args.items())))`. -/
abbrev CacheKey := String × List (String × JVal)

/-- The in-memory store `self.cache`: key -> (fetch-day ordinal, body). -/
abbrev CacheStore := List (CacheKey × (Nat × String))

/-- Python `==` on cache keys: the URL compares as a string and the
sorted items tuple compares pairwise with `==` on names and values. -/
def keyEq (a b : CacheKey) : Bool :=
  a.1 == b.1 && pyEqFields a.2 b.2

/-- First entry of the store whose key `==`-matches, if any
(dict lookup on the in-memory store). -/
def storeLookup (st : CacheStore) (k : CacheKey) : Option (Nat × String) :=
  match st with
  | [] => none
  | e :: rest => if keyEq e.1 k then some e.2 else storeLookup rest k

/-- `key in self.cache`. -/
def storeContains (st : CacheStore) (k : CacheKey) : Bool :=
  (storeLookup st k).isSome

/-- Dict assignment on the store: overwrite the matching entry in place,
or append a new one. -/
def storeInsert (st : CacheStore) (k : CacheKey) (v : Nat × String) : CacheStore :=
  match st with
  | [] => [(k, v)]
  | e :: rest =>
    if keyEq e.1 k then (e.1, v) :: rest else e :: storeInsert rest k v

/-- The state of the backing pickle file as seen by `Cache.__init__`. -/
inductive FileState where
  | absent
  | unreadable
  | empty
  | corrupt
  | valid (st : CacheStore)

/-- `self.path.open("rb")` followed by `pickle.load(cachefile)`:
the exception each file state produces, per the Python file and pickle
library semantics. -/
def pickleLoadFile : FileState → Except PyErr CacheStore
  | .absent => .error .ioError
  | .unreadable => .error .ioError
  | .empty => .error .eofError
  | .corrupt => .error .unpicklingError
  | .valid st => .ok st

/-- The load-time expiry filter of `Cache.__init__`: keep an entry iff
`(TODAY - date.fromordinal(date)).days < EXP`, with day ordinals compared
as calendar-day differences. -/
def cacheFilter (today : Nat) (st : CacheStore) : CacheStore :=
  st.filter (fun e => decide ((today : Int) - (e.2.1 : Int) < (EXP : Int)))

/-- `Cache.__init__` restricted to its load step: filter the unpickled
store by expiry; `except (IOError, EOFError)` falls back to an empty
store; any other exception (notably `pickle.UnpicklingError` from corrupt
data) propagates to the caller. -/
def cacheInit (today : Nat) (fs : FileState) : Except PyErr CacheStore :=
  match pickleLoadFile fs with
  | .ok raw => .ok (cacheFilter today raw)
  | .error .ioError => .ok []
  | .error .eofError => .ok []
  | .error e => .error e

/-- `Cache.__getitem__`: `self.cache[key][1]` — return the stored body
(ignoring its fetch day entirely), or raise KeyError. -/
def cacheGetItem (st : CacheStore) (k : CacheKey) : Except PyErr String :=
  match storeLookup st k with
  | some e => .ok e.2
  | none => .error .keyError

/-- The writable-file abstraction behind `Cache.sync`: `contents` is the
store most recently pickled to disk, and an unwritable path makes
`self.path.open("wb")` raise `IOError`. -/
structure Disk where
  writable : Bool
  contents : Option CacheStore
  deriving Repr

/-- `Cache.sync`: rewrite the whole store to the backing file, or raise
`IOError` when the file cannot be opened for writing. -/
def cacheSync (st : CacheStore) (d : Disk) : Except PyErr Disk :=
  if d.writable then .ok ⟨d.writable, some st⟩ else .error .ioError

/-- `Cache.__setitem__`: insert `(TODAY.toordinal(), value)` under `key`,
then `self.sync()`; an `IOError` from `sync` propagates uncaught (the
in-memory mutation is unobservable past the raise, so the error branch
reports only the exception). -/
def cacheSetItem (today : Nat) (k : CacheKey) (body : String)
    (st : CacheStore) (d : Disk) : Except PyErr (CacheStore × Disk) :=
  let st2 := storeInsert st k (today, body)
  match cacheSync st2 d with
  | .ok d2 => .ok (st2, d2)
  | .error e => .error e

/- ## Page fetch: `get_response` (`fetcher.py` lines 86-102) -/

/-- Insertion sort of parameter items by key, modelling
`sorted(args.items())` (keys are distinct in a Python dict, so sorting
never compares the heterogeneous values). -/
def insertSorted (p : String × JVal) : List (String × JVal) → List (String × JVal)
  | [] => [p]
  | q :: rest =>
    if p.1 ≤ q.1 then p :: q :: rest else q :: insertSorted p rest

/-- `sorted(args.items())`. -/
def sortArgs : List (String × JVal) → List (String × JVal)
  | [] => []
  | p :: rest => insertSorted p (sortArgs rest)

/-- `key = (url, tuple(sorted(args.items())))`. -/
def mkKey (url : String) (args : List (String × JVal)) : CacheKey :=
  (url, sortArgs args)

/-- The process state threaded through `get_response`: the in-memory
cache store plus the backing file. -/
structure GState where
  cache : CacheStore
  disk : Disk

/-- `get_response(url, args, cache)`: consult the cache when enabled and
the key is present, otherwise fetch a fresh body over the network
(abstracted as `net`, the outcome of `get_json_from_url`) and, when
caching, store it (a failing `sync` propagates); finally parse the body
as JSON (`parse` abstracts `json.loads`). -/
def get_response (net : List (String × JVal) → Except PyErr String)
    (parse : String → Except PyErr JVal) (today : Nat) (url : String)
    (args : List (String × JVal)) (cache : Bool) (st : GState) :
    Except PyErr (JVal × GState) :=
  let key := mkKey url args
  if cache && storeContains st.cache key then
    match cacheGetItem st.cache key with
    | .ok body =>
      match parse body with
      | .ok j => .ok (j, st)
      | .error e => .error e
    | .error e => .error e
  else
    match net args with
    | .error e => .error e
    | .ok body =>
      if cache then
        match cacheSetItem today key body st.cache st.disk with
        | .ok (c2, d2) =>
          match parse body with
          | .ok j => .ok (j, ⟨c2, d2⟩)
          | .error e => .error e
        | .error e => .error e
      else
        match parse body with
        | .ok j => .ok (j, st)
        | .error e => .error e

/- ## Pagination: `fetch` (`fetcher.py` lines 105-153) -/

/-- The body of the outer `try` in the fetch loop, in statement order:
`results.extend(response[1])` (integer subscript, then iteration), then
`this_page = response[0]["page"]`, then `pages = response[0]["pages"]`.
Returns the extracted records, `this_page` and `pages`. -/
def tryMain (response : JVal) : Except PyErr (List JVal × JVal × JVal) := do
  let r1 ← pySubInt response 1
  let recs ← pyIter r1
  let env ← pySubInt response 0
  let tp ← pySubStr env "page"
  let pg ← pySubStr env "pages"
  return (recs, tp, pg)

/-- The inner `try` of the error handler:
`message = response[0]["message"][0]` followed by
`"Got error {id} ({key}): {value}".format(**message)`.  The `**` unpacking
raises TypeError on a non-mapping, and `format` raises KeyError on a
missing field; on success the statement raises `RuntimeError` with the
formatted message, returned here as the message string. -/
def tryMessage (response : JVal) : Except PyErr String := do
  let env ← pySubInt response 0
  let ms ← pySubStr env "message"
  let m0 ← pySubInt ms 0
  match m0 with
  | .obj mf => do
    let idv ←
      match lookupField mf "id" with
      | some v => Except.ok v
      | none => Except.error PyErr.keyError
    let keyv ←
      match lookupField mf "key" with
      | some v => Except.ok v
      | none => Except.error PyErr.keyError
    let valv ←
      match lookupField mf "value" with
      | some v => Except.ok v
      | none => Except.error PyErr.keyError
    return ("Got error " ++ pyStr idv ++ " (" ++ pyStr keyv ++ "): " ++ pyStr valv)
  | _ => Except.error PyErr.typeError

/-- Is the exception caught by `except (IndexError, KeyError)`? -/
def isIdxOrKey : PyErr → Bool
  | .indexError => true
  | .keyError => true
  | _ => false

/-- One loop body's response processing: run the outer `try`; on
IndexError/KeyError run the error handler, which raises the formatted
`RuntimeError` when a complete error payload is found, raises
`RuntimeError` with a `pprint` dump of the response when the handler
itself hits IndexError/KeyError, and otherwise lets the handler's own
exception (e.g. TypeError from `**`) propagate. -/
def processPage (response : JVal) : Except PyErr (List JVal × JVal × JVal) :=
  match tryMain response with
  | .ok r => .ok r
  | .error e =>
    if isIdxOrKey e then
      match tryMessage response with
      | .ok msg => .error (.runtimeError msg)
      | .error e2 =>
        if isIdxOrKey e2 then
          .error (.runtimeError ("Got unexpected response:\n" ++ pformatVal response))
        else .error e2
    else .error e

/-- The post-loop id-trimming step for one record:
`if "id" in i: i["id"] = i["id"].strip()`.  A present non-string `id`
makes `.strip()` raise AttributeError; a non-dict record that contains
`"id"` makes the string subscript raise TypeError. -/
def trimRecord (r : JVal) : Except PyErr JVal := do
  let c ← pyContains r "id"
  if c then do
    let v ← pySubStr r "id"
    match v with
    | .str s =>
      match r with
      | .obj fs => Except.ok (.obj (setArg fs "id" (.str (pyStrip s))))
      | _ => Except.ok r
    | _ => Except.error PyErr.attributeError
  else
    return r

/-- `for i in results: ...` — trim every record in order; the first
exception aborts the whole fetch. -/
def trimRecords : List JVal → Except PyErr (List JVal)
  | [] => .ok []
  | r :: rest => do
    let r2 ← trimRecord r
    let rest2 ← trimRecords rest
    return (r2 :: rest2)

/-- A parsed `datetime.strptime(_, "%Y-%m-%d")` result. -/
structure DateYmd where
  year : Nat
  month : Nat
  day : Nat
  deriving DecidableEq, Repr

/-- Leap-year test of the proleptic Gregorian calendar. -/
def isLeap (y : Nat) : Bool :=
  (y % 4 == 0 && y % 100 != 0) || y % 400 == 0

/-- Days in a month, for `datetime`'s calendar validation. -/
def daysInMonth (y m : Nat) : Nat :=
  if m = 2 then (if isLeap y then 29 else 28)
  else if m = 4 ∨ m = 6 ∨ m = 9 ∨ m = 11 then 30
  else 31

/-- Split a character list on a separator character. -/
def splitOnChar (sep : Char) : List Char → List (List Char)
  | [] => [[]]
  | c :: rest =>
    let r := splitOnChar sep rest
    if c == sep then [] :: r
    else
      match r with
      | [] => [[c]]
      | g :: gs => (c :: g) :: gs

/-- Numeric value of a digit list. -/
def digitsToNat (l : List Char) : Nat :=
  l.foldl (fun a c => a * 10 + (c.toNat - 48)) 0

/-- The `%m` directive of CPython's `_strptime`
(`1[0-2]|0[1-9]|[1-9]`): one or two digits whose value is 1..12 — the
month range is enforced by the directive's own regex. -/
def monthGroupVal (m : List Char) : Option Nat :=
  if m ≠ [] && m.length ≤ 2 && m.all Char.isDigit
      && 1 ≤ digitsToNat m && digitsToNat m ≤ 12 then
    some (digitsToNat m)
  else none

/-- The `%d` directive of CPython's `_strptime`
(`3[01]|[12]\d|0[1-9]|[1-9]| [1-9]`): one or two digits whose value is
1..31, or the space-padded single-digit alternative `" 1"`..`" 9"`. -/
def dayGroupVal (d : List Char) : Option Nat :=
  match d with
  | [' ', c] => if '1' ≤ c && c ≤ '9' then some (c.toNat - 48) else none
  | _ =>
    if d ≠ [] && d.length ≤ 2 && d.all Char.isDigit
        && 1 ≤ digitsToNat d && digitsToNat d ≤ 31 then
      some (digitsToNat d)
    else none

/-- `datetime.strptime(s, "%Y-%m-%d")`, after CPython's `_strptime`:
`%Y` matches exactly four (ASCII) digits (`\d\d\d\d`), `%m` and `%d` as
above, the two dashes are literal, and nothing may remain unconverted
(which the three-way dash split captures, since no group may contain a
dash); the matched groups must then form a real calendar date accepted
by the `datetime` constructor — year at least `datetime.MINYEAR = 1`
and day within the month's length.  Anything else raises ValueError
(modelled as `none`). -/
def parseYmd (s : String) : Option DateYmd :=
  match splitOnChar '-' s.toList with
  | [y, m, d] =>
    if y.length = 4 && y.all Char.isDigit then
      match monthGroupVal m, dayGroupVal d with
      | some mn, some dn =>
        let yn := digitsToNat y
        if 1 ≤ yn && dn ≤ daysInMonth yn mn then
          some ⟨yn, mn, dn⟩
        else none
      | _, _ => none
    else none
  | _ => none

/-- `strptime` applied to a JSON value: TypeError on a non-string
argument, ValueError on an unparseable string. -/
def strptimeJ : JVal → Except PyErr DateYmd
  | .str s =>
    match parseYmd s with
    | some d => .ok d
    | none => .error .valueError
  | _ => .error .typeError

/-- The `lastupdated` extraction body:
`datetime.strptime(response[0]["lastupdated"], "%Y-%m-%d")`. -/
def luTry (resp : JVal) : Except PyErr DateYmd := do
  let env ← pySubInt resp 0
  let v ← pySubStr env "lastupdated"
  strptimeJ v

/-- Everything after the pagination loop: trim ids, then try the
`lastupdated` parse, where only `KeyError` is caught (`except KeyError:
pass`) and leaves the last-updated field unset; any other exception
(ValueError from a malformed date, TypeError from a non-string)
propagates. `response` unbound (loop never ran) would be a NameError,
which is unreachable from `fetch` since the loop always runs once. -/
def fetchPost (acc : List JVal) (lastResp : Option JVal) :
    Except PyErr (List JVal × Option DateYmd) :=
  match trimRecords acc with
  | .error e => .error e
  | .ok res =>
    match lastResp with
    | none => .error .nameError
    | some resp =>
      match luTry resp with
      | .ok d => .ok (res, some d)
      | .error .keyError => .ok (res, none)
      | .error e => .error e

/-- Result of the pagination loop proper, carrying the final state of the
abstract page getter. -/
inductive LoopRes (σ : Type) where
  | diverge (st : σ)
  | err (e : PyErr) (st : σ)
  | done (acc : List JVal) (lastResp : Option JVal) (st : σ)

/-- The `while pages != this_page` loop.  The getter abstracts
`get_response(url, args, cache)` over an explicit state `σ`.  The loop
condition is evaluated with Python `==`; the body fetches a page,
processes it, runs `args["page"] = int(this_page) + 1`, and iterates with
the envelope's `pages`/`page` values.  Fuel bounds the iteration count
only (the condition check itself consumes no fuel; the source loop has no
termination guard, and `diverge` marks a run that needs more fuel). -/
def fetchLoop {σ : Type} (getPage : List (String × JVal) → σ → Except PyErr (JVal × σ)) :
    Nat → List (String × JVal) → σ → List JVal → JVal → JVal → Option JVal → LoopRes σ
  | 0, _, st, acc, pgs, tp, lastResp =>
    if pyEq pgs tp then .done acc lastResp st else .diverge st
  | fuel + 1, args, st, acc, pgs, tp, lastResp =>
    if pyEq pgs tp then .done acc lastResp st
    else
      match getPage args st with
      | .error e => .err e st
      | .ok (response, st2) =>
        match processPage response with
        | .error e => .err e st2
        | .ok (recs, tp2, pgs2) =>
          match pyToInt tp2 with
          | .error e => .err e st2
          | .ok n =>
            fetchLoop getPage fuel (setArg args "page" (.num (n + 1))) st2
              (acc ++ recs) pgs2 tp2 (some response)

/-- Result of a whole `fetch` call. -/
inductive FetchRes (σ : Type) where
  | diverge (st : σ)
  | err (e : PyErr) (st : σ)
  | ok (records : List JVal) (lastUpdated : Option DateYmd) (st : σ)

/-- The final getter state of a fetch result. -/
def FetchRes.stateOf {σ : Type} : FetchRes σ → σ
  | .diverge st => st
  | .err _ st => st
  | .ok _ _ st => st

/-- A fetch result with its state erased (for stating that the outcome is
independent of the state a run started from). -/
def FetchRes.forgetSt {σ : Type} : FetchRes σ → FetchRes Unit
  | .diverge _ => .diverge ()
  | .err e _ => .err e ()
  | .ok r lu _ => .ok r lu ()

/-- `args["format"] = "json"; args["per_page"] = PER_PAGE` — the fixed
parameters installed at the top of `fetch`. -/
def fetchArgs1 (args0 : List (String × JVal)) : List (String × JVal) :=
  setArg (setArg args0 "format" (.str "json")) "per_page" (.num PER_PAGE)

/-- `fetch` over an abstract page getter: install the fixed parameters,
run the loop from the sentinel state `pages = 0, this_page = 1`, then the
post-loop trimming and `lastupdated` steps. -/
def fetchWith {σ : Type} (getPage : List (String × JVal) → σ → Except PyErr (JVal × σ))
    (fuel : Nat) (args0 : List (String × JVal)) (st : σ) : FetchRes σ :=
  match fetchLoop getPage fuel (fetchArgs1 args0) st [] (.num 0) (.num 1) none with
  | .diverge st2 => .diverge st2
  | .err e st2 => .err e st2
  | .done acc lastResp st2 =>
    match fetchPost acc lastResp with
    | .ok (res, lu) => .ok res lu st2
    | .error e => .err e st2

/-- `fetch(url, args, cache)` proper: the loop's page getter is
`get_response` over the cache state. -/
def fetch (net : List (String × JVal) → Except PyErr String)
    (parse : String → Except PyErr JVal) (cache : Bool) (today : Nat)
    (url : String) (fuel : Nat) (args0 : List (String × JVal)) (st : GState) :
    FetchRes GState :=
  fetchWith (fun a s => get_response net parse today url a cache s) fuel args0 st

/- ## Synthetic well-formed APIs for the pagination claims -/

/-- The page number a request asks for: the `page` parameter when present
as a number, else page 1 (the first request carries no `page`). -/
def pageIdxNat (args : List (String × JVal)) : Nat :=
  match lookupField args "page" with
  | some (.num k) => k.toNat
  | _ => 1

/-- Per-page data of a synthetic API: extra envelope fields (beyond
`page`/`pages`) and the record list. -/
abbrev PagesData := List (List (String × JVal) × List JVal)

/-- A well-formed page envelope: `page` and `pages` first, then any extra
fields. -/
def mkEnv (p n : Int) (extra : List (String × JVal)) : JVal :=
  .obj (("page", .num p) :: ("pages", .num n) :: extra)

/-- A well-formed two-element page response `[envelope, records]`. -/
def mkResp (p n : Int) (extra : List (String × JVal)) (recs : List JVal) : JVal :=
  .arr [mkEnv p n extra, .arr recs]

/-- The response of a well-formed API to a request for page `i`
(1-based); `pages` always reports the total page count. -/
def apiOfIdx (pd : PagesData) (i : Nat) : JVal :=
  match pd[i - 1]? with
  | some pg => mkResp (i : Int) (pd.length : Int) pg.1 pg.2
  | none => .null

/-- The response of a well-formed API to a request. -/
def apiOf (pd : PagesData) (args : List (String × JVal)) : JVal :=
  apiOfIdx pd (pageIdxNat args)

/-- Pages with no extra envelope fields, from record lists alone. -/
def plainPages (recss : List (List JVal)) : PagesData :=
  recss.map (fun r => ([], r))

/-- A stateless page getter that always succeeds with the well-formed
API's response. -/
def pureOracle {σ : Type} (pd : PagesData) :
    List (String × JVal) → σ → Except PyErr (JVal × σ) :=
  fun a s => .ok (apiOf pd a, s)

/-- A page getter that always returns one fixed response. -/
def constOracle {σ : Type} (v : JVal) :
    List (String × JVal) → σ → Except PyErr (JVal × σ) :=
  fun _ s => .ok (v, s)

/-- A page getter that also records every request it serves. -/
def traceOracle (pd : PagesData) :
    List (String × JVal) → List (List (String × JVal)) →
      Except PyErr (JVal × List (List (String × JVal))) :=
  fun a tr => .ok (apiOf pd a, tr ++ [a])

/- ## Derived notions used in the statements -/

/-- The fresh-fetch path of `get_response`: network body then JSON parse
(no cache interaction). -/
def freshGet (net : List (String × JVal) → Except PyErr String)
    (parse : String → Except PyErr JVal) (a : List (String × JVal)) :
    Except PyErr JVal :=
  match net a with
  | .error e => .error e
  | .ok b => parse b

/-- Re-attach a fixed state to a state-erased loop result. -/
def liftRes {σ : Type} (st : σ) : LoopRes Unit → LoopRes σ
  | .diverge _ => .diverge st
  | .err e _ => .err e st
  | .done acc lr _ => .done acc lr st

/-- The records the pagination walk accumulates from page `k` (1-based)
to the last page of a well-formed API. -/
def tailRecs (pd : PagesData) (k : Nat) : List JVal :=
  ((pd.drop (k - 1)).map (fun p => p.2)).flatten

/-- The requests the walk issues from iteration `k` (whose parameters are
`args`) through iteration `n`: every later request `j` additionally
carries `page = j`. -/
def tailReqs (args : List (String × JVal)) (k n : Nat) :
    List (List (String × JVal)) :=
  args :: (List.range' (k + 1) (n - k)).map
    (fun (j : Nat) => setArg args "page" (.num (j : Int)))

/-- Fold a state updater over a request list (the net effect of the page
getter's state across the walk). -/
def foldState {σ : Type} (upd : List (String × JVal) → σ → σ)
    (l : List (List (String × JVal))) (st : σ) : σ :=
  l.foldl (fun s a => upd a s) st

/-- Whether a JSON value is a dict (a mapping, as `**`-unpacking
requires). -/
def isObjJ : JVal → Bool
  | .obj _ => true
  | _ => false

/-- Whether a record's `id` field, if the record is a dict carrying one,
holds a string (the only shape the post-loop trimming accepts). -/
def idStringOk (r : JVal) : Bool :=
  match r with
  | .obj fs =>
    match lookupField fs "id" with
    | some (.str _) => true
    | some _ => false
    | none => true
  | _ => true

/- ## Basic lemmas about parameter dictionaries -/

theorem lookupField_setArg_self (a : List (String × JVal)) (k : String) (v : JVal) :
    lookupField (setArg a k v) k = some v := by
  induction a with
  | nil => simp [setArg, lookupField]
  | cons p rest ih =>
    by_cases h : p.1 = k
    · simp [setArg, h, lookupField]
    · simp [setArg, h, lookupField, ih]

theorem lookupField_setArg_ne (a : List (String × JVal)) (k k2 : String) (v : JVal)
    (h : k2 ≠ k) : lookupField (setArg a k v) k2 = lookupField a k2 := by
  have hk : k ≠ k2 := fun hh => h hh.symm
  induction a with
  | nil => simp [setArg, lookupField, hk]
  | cons p rest ih =>
    obtain ⟨pk, pv⟩ := p
    by_cases hp : pk = k
    · subst hp
      simp [setArg, lookupField, hk]
    · by_cases hq : pk = k2
      · simp [setArg, hp, lookupField, hq, h]
      · simp [setArg, hp, lookupField, hq, ih]

theorem setArg_setArg (a : List (String × JVal)) (k : String) (v w : JVal) :
    setArg (setArg a k v) k w = setArg a k w := by
  induction a with
  | nil => simp [setArg]
  | cons p rest ih =>
    by_cases h : p.1 = k
    · simp [setArg, h]
    · simp [setArg, h, ih]

/- ## Transport lemmas -/

theorem gjfuGo_first_success (transport : Nat → AttemptResult) (url : String) :
    ∀ fuel used i b, i < fuel →
      (∀ j, j < i → transport (used + j) = .connFail) →
      transport (used + i) = .success b →
      gjfuGo transport url fuel used = .ok b (used + i + 1) := by
  intro fuel
  induction fuel with
  | zero => intro used i b hi; omega
  | succ f ih =>
    intro used i b hi hconn hs
    cases i with
    | zero =>
      simp only [Nat.add_zero] at hs
      simp [gjfuGo, hs]
    | succ m =>
      have h0 : transport used = .connFail := by
        have := hconn 0 (by omega)
        simpa using this
      have hconn2 : ∀ j, j < m → transport (used + 1 + j) = .connFail := by
        intro j hj
        have := hconn (j + 1) (by omega)
        have he : used + (j + 1) = used + 1 + j := by omega
        rw [he] at this
        exact this
      have hs2 : transport (used + 1 + m) = .success b := by
        have he : used + (m + 1) = used + 1 + m := by omega
        rw [he] at hs
        exact hs
      have := ih (used + 1) m b (by omega) hconn2 hs2
      simp only [gjfuGo, h0]
      rw [this]
      congr 1
      omega

theorem gjfuGo_first_other (transport : Nat → AttemptResult) (url : String) :
    ∀ fuel used i e, i < fuel →
      (∀ j, j < i → transport (used + j) = .connFail) →
      transport (used + i) = .otherFail e →
      gjfuGo transport url fuel used = .raised e (used + i + 1) := by
  intro fuel
  induction fuel with
  | zero => intro used i e hi; omega
  | succ f ih =>
    intro used i e hi hconn hs
    cases i with
    | zero =>
      simp only [Nat.add_zero] at hs
      simp [gjfuGo, hs]
    | succ m =>
      have h0 : transport used = .connFail := by
        have := hconn 0 (by omega)
        simpa using this
      have hconn2 : ∀ j, j < m → transport (used + 1 + j) = .connFail := by
        intro j hj
        have := hconn (j + 1) (by omega)
        have he : used + (j + 1) = used + 1 + j := by omega
        rw [he] at this
        exact this
      have hs2 : transport (used + 1 + m) = .otherFail e := by
        have he : used + (m + 1) = used + 1 + m := by omega
        rw [he] at hs
        exact hs
      have := ih (used + 1) m e (by omega) hconn2 hs2
      simp only [gjfuGo, h0]
      rw [this]
      congr 1
      omega

theorem gjfuGo_all_conn (transport : Nat → AttemptResult) (url : String) :
    ∀ fuel used,
      (∀ j, j < fuel → transport (used + j) = .connFail) →
      gjfuGo transport url fuel used =
        .connectivityError ("Error connecting to " ++ url)
          "Couldn't connect to API" (used + fuel) := by
  intro fuel
  induction fuel with
  | zero => intro used _; simp [gjfuGo]
  | succ f ih =>
    intro used hconn
    have h0 : transport used = .connFail := by
      have := hconn 0 (by omega)
      simpa using this
    have hconn2 : ∀ j, j < f → transport (used + 1 + j) = .connFail := by
      intro j hj
      have := hconn (j + 1) (by omega)
      have he : used + (j + 1) = used + 1 + j := by omega
      rw [he] at this
      exact this
    have := ih (used + 1) hconn2
    simp only [gjfuGo, h0]
    rw [this]
    congr 1
    omega

theorem gjfuGo_attempts (transport : Nat → AttemptResult) (url : String) :
    ∀ fuel used,
      (gjfuGo transport url fuel used).attemptsMade ≤ used + fuel := by
  intro fuel
  induction fuel with
  | zero => intro used; simp [gjfuGo, JsonFetchResult.attemptsMade]
  | succ f ih =>
    intro used
    cases h : transport used with
    | success b => simp [gjfuGo, h, JsonFetchResult.attemptsMade]
    | otherFail e => simp [gjfuGo, h, JsonFetchResult.attemptsMade]
    | connFail =>
      have := ih (used + 1)
      simp only [gjfuGo, h]
      omega

/-- Claim C2: `get_json_from_url` makes at most 5 GET attempts, retries
only on connectivity failures (a non-connectivity failure propagates at
once, after the attempts made so far), returns the body of the first
successful attempt unchanged, and when all 5 attempts fail with
connectivity errors it fails on the connectivity path, logging an error
message that names the URL and raising `RuntimeError`. -/
theorem get_json_from_url_retry_spec (transport : Nat → AttemptResult) (url : String) :
    (∀ i b, i < TRIES → (∀ j, j < i → transport j = .connFail) →
      transport i = .success b →
      get_json_from_url transport url = .ok b (i + 1))
    ∧ (∀ i e, i < TRIES → (∀ j, j < i → transport j = .connFail) →
      transport i = .otherFail e →
      get_json_from_url transport url = .raised e (i + 1))
    ∧ ((∀ j, j < TRIES → transport j = .connFail) →
      get_json_from_url transport url =
        .connectivityError ("Error connecting to " ++ url)
          "Couldn't connect to API" TRIES)
    ∧ (get_json_from_url transport url).attemptsMade ≤ TRIES := by
  refine ⟨?_, ?_, ?_, ?_⟩
  · intro i b hi hconn hs
    have := gjfuGo_first_success transport url TRIES 0 i b hi
      (by intro j hj; simpa using hconn j hj) (by simpa using hs)
    simpa [get_json_from_url] using this
  · intro i e hi hconn hs
    have := gjfuGo_first_other transport url TRIES 0 i e hi
      (by intro j hj; simpa using hconn j hj) (by simpa using hs)
    simpa [get_json_from_url] using this
  · intro hconn
    have := gjfuGo_all_conn transport url TRIES 0
      (by intro j hj; simpa using hconn j hj)
    simpa [get_json_from_url] using this
  · have := gjfuGo_attempts transport url TRIES 0
    simpa [get_json_from_url] using this

/-- Witness for C2: a transport failing twice with connectivity errors
then succeeding returns the third attempt's body after 3 attempts; a
transport failing every time exhausts all 5 tries and fails on the
connectivity path, logging the URL. -/
theorem get_json_from_url_retry_spec_witness :
    get_json_from_url (fun n => if n < 2 then .connFail else .success "body") "u"
      = .ok "body" 3
    ∧ get_json_from_url (fun _ => .connFail) "u"
      = .connectivityError ("Error connecting to " ++ "u")
          "Couldn't connect to API" TRIES :=
  ⟨(get_json_from_url_retry_spec (fun n => if n < 2 then .connFail else .success "body") "u").1
      2 "body" (by decide) (by decide) (by decide),
    (get_json_from_url_retry_spec (fun _ => .connFail) "u").2.2.1
      (fun j _ => rfl)⟩

/- ## Cache claims -/

/-- Claim C4: an entry recorded on day `D` survives a fresh cache load on
day `D+6` and is dropped by a fresh load on day `D+7` or later; the
threshold compares calendar-day ordinals at load time, and lookup
(`Cache.__getitem__`) returns the stored body without any freshness
check. -/
theorem cache_ttl_spec (today D j d : Nat) (k : CacheKey) (b : String)
    (st st2 : CacheStore) :
    (cacheInit today (.valid st) = .ok (cacheFilter today st))
    ∧ ((k, (D, b)) ∈ st → (k, (D, b)) ∈ cacheFilter (D + 6) st)
    ∧ (7 ≤ j → (k, (D, b)) ∉ cacheFilter (D + j) st)
    ∧ (storeLookup st2 k = some (d, b) → cacheGetItem st2 k = .ok b) := by
  refine ⟨rfl, ?_, ?_, ?_⟩
  · intro hmem
    refine List.mem_filter.mpr ⟨hmem, ?_⟩
    simp only [EXP, decide_eq_true_eq]
    push_cast
    omega
  · intro hj hmem
    have h2 := (List.mem_filter.mp hmem).2
    simp only [EXP, decide_eq_true_eq] at h2
    push_cast at h2
    omega
  · intro hl
    simp [cacheGetItem, hl]

/-- Witness for C4: a concrete entry fetched on day 10 survives a load on
day 16, is gone from a load on day 17, and lookup returns the body of an
entry dated day 3 regardless of the current day. -/
theorem cache_ttl_spec_witness :
    ((("u", []), (10, "b")) ∈ cacheFilter 16 [(("u", []), (10, "b"))])
    ∧ ((("u", []), (10, "b")) ∉ cacheFilter 17 [(("u", []), (10, "b"))])
    ∧ cacheGetItem [(("u", []), (3, "b"))] ("u", []) = .ok "b" :=
  ⟨(cache_ttl_spec 0 10 6 3 ("u", []) "b" [(("u", []), (10, "b"))]
      [(("u", []), (3, "b"))]).2.1 (List.mem_singleton.mpr rfl),
   (cache_ttl_spec 0 10 7 3 ("u", []) "b" [(("u", []), (10, "b"))]
      [(("u", []), (3, "b"))]).2.2.1 (by decide),
   (cache_ttl_spec 0 10 7 3 ("u", []) "b" [(("u", []), (10, "b"))]
      [(("u", []), (3, "b"))]).2.2.2 rfl⟩

/-- Claim C7 counterexample: on a backing file holding corrupt
(undeserializable, non-truncated) data, `Cache.__init__` does not fall
back to an empty store — `pickle.UnpicklingError` is not among the caught
exception classes and propagates to the caller. -/
theorem cache_load_corrupt_raises_cex :
    cacheInit 0 .corrupt = .error .unpicklingError := rfl

/-- Claim C7 amended: cache load never fails the caller when the backing
file is absent, unreadable (both `IOError`) or empty/truncated
(`EOFError`): each yields an empty store; corrupt non-truncated data,
however, raises. -/
theorem cache_load_recovers_ioerrors (today : Nat) :
    cacheInit today .absent = .ok []
    ∧ cacheInit today .unreadable = .ok []
    ∧ cacheInit today .empty = .ok [] :=
  ⟨rfl, rfl, rfl⟩

/-- Claim C5 counterexample: with an unwritable backing file, a
cache-enabled fetch that misses the cache does not return the freshly
fetched body — the `IOError` raised by `Cache.sync` inside
`Cache.__setitem__` propagates through `get_response` and aborts the
whole fetch. -/
theorem cache_write_failure_fatal_cex :
    fetch (fun _ => .ok "body") (fun _ => .ok .null) true 0 "u" 1 []
      ⟨[], ⟨false, none⟩⟩ = .err .ioError ⟨[], ⟨false, none⟩⟩ := rfl

/-- Claim C5 amended: an I/O error while persisting the store during a
cache-enabled page fetch is fatal: whenever the disk is unwritable, the
key misses the cache and the network fetch succeeds, `fetch` fails with
the propagated `IOError` instead of returning the fresh data. -/
theorem cache_write_failure_propagates
    (net : List (String × JVal) → Except PyErr String)
    (parse : String → Except PyErr JVal)
    (today : Nat) (url : String) (args0 : List (String × JVal)) (fuel : Nat)
    (st : GState) (body : String)
    (hw : st.disk.writable = false)
    (hmiss : storeContains st.cache (mkKey url (fetchArgs1 args0)) = false)
    (hnet : net (fetchArgs1 args0) = .ok body) :
    fetch net parse true today url (fuel + 1) args0 st = .err .ioError st := by
  have hresp : get_response net parse today url (fetchArgs1 args0) true st
      = .error .ioError := by
    simp [get_response, hmiss, hnet, cacheSetItem, cacheSync, hw]
  unfold fetch fetchWith
  simp [fetchLoop, pyEq, hresp]

/-- Witness for C5 (amended): a concrete cache-enabled fetch over an
unwritable disk fails with `IOError`. -/
theorem cache_write_failure_propagates_witness :
    fetch (fun _ => .ok "fresh") (fun _ => .ok .null) true 3 "url" 1 []
      ⟨[], ⟨false, none⟩⟩ = .err .ioError ⟨[], ⟨false, none⟩⟩ :=
  cache_write_failure_propagates (fun _ => .ok "fresh") (fun _ => .ok .null)
    3 "url" [] 0 ⟨[], ⟨false, none⟩⟩ "fresh" rfl rfl rfl

/- ## Claim C9: cache-disabled fetch never touches the cache -/

theorem get_response_nocache (net : List (String × JVal) → Except PyErr String)
    (parse : String → Except PyErr JVal) (today : Nat) (url : String)
    (a : List (String × JVal)) (st : GState) :
    get_response net parse today url a false st =
      match freshGet net parse a with
      | .ok j => .ok (j, st)
      | .error e => .error e := by
  simp only [get_response, freshGet, Bool.false_and, if_false, Bool.false_eq_true]
  cases net a with
  | error e => rfl
  | ok b => cases parse b <;> rfl

theorem fetchLoop_nocache_lift (net : List (String × JVal) → Except PyErr String)
    (parse : String → Except PyErr JVal) (today : Nat) (url : String) :
    ∀ (fuel : Nat) (args : List (String × JVal)) (st : GState)
      (acc : List JVal) (pgs tp : JVal) (lr : Option JVal),
      fetchLoop (fun a s => get_response net parse today url a false s)
          fuel args st acc pgs tp lr
        = liftRes st
            (fetchLoop
              (fun a s =>
                match freshGet net parse a with
                | .ok j => .ok (j, s)
                | .error e => .error e)
              fuel args () acc pgs tp lr) := by
  intro fuel
  induction fuel with
  | zero =>
    intro args st acc pgs tp lr
    by_cases h : pyEq pgs tp <;> simp [fetchLoop, h, liftRes]
  | succ f ih =>
    intro args st acc pgs tp lr
    by_cases h : pyEq pgs tp
    · simp [fetchLoop, h, liftRes]
    · simp only [fetchLoop, h, Bool.false_eq_true, if_false]
      rw [get_response_nocache]
      cases hf : freshGet net parse args with
      | error e => simp [liftRes]
      | ok j =>
        cases hp : processPage j with
        | error e => simp [hp, liftRes]
        | ok r =>
          obtain ⟨recs, tp2, pgs2⟩ := r
          cases hi : pyToInt tp2 with
          | error e => simp [hp, hi, liftRes]
          | ok n =>
            simp only [hp, hi]
            exact ih (setArg args "page" (.num (n + 1))) st (acc ++ recs)
              pgs2 tp2 (some j)

/-- Claim C9: a fetch with caching disabled leaves the cache state (the
in-memory store and the backing file) exactly as it was, and its outcome
is independent of that state — the response is always freshly fetched. -/
theorem fetch_nocache_frame (net : List (String × JVal) → Except PyErr String)
    (parse : String → Except PyErr JVal) (today : Nat) (url : String)
    (fuel : Nat) (args0 : List (String × JVal)) (st st2 : GState) :
    (fetch net parse false today url fuel args0 st).stateOf = st
    ∧ (fetch net parse false today url fuel args0 st).forgetSt
      = (fetch net parse false today url fuel args0 st2).forgetSt := by
  unfold fetch fetchWith
  rw [fetchLoop_nocache_lift net parse today url fuel (fetchArgs1 args0) st
    [] (.num 0) (.num 1) none]
  rw [fetchLoop_nocache_lift net parse today url fuel (fetchArgs1 args0) st2
    [] (.num 0) (.num 1) none]
  cases fetchLoop
      (fun a s =>
        match freshGet net parse a with
        | .ok j => .ok (j, s)
        | .error e => .error e)
      fuel (fetchArgs1 args0) () [] (.num 0) (.num 1) none with
  | diverge u => simp [liftRes, FetchRes.stateOf, FetchRes.forgetSt]
  | err e u => simp [liftRes, FetchRes.stateOf, FetchRes.forgetSt]
  | done acc lr u =>
    cases hp : fetchPost acc lr with
    | error e => simp [liftRes, hp, FetchRes.stateOf, FetchRes.forgetSt]
    | ok p =>
      obtain ⟨res, lu⟩ := p
      simp [liftRes, hp, FetchRes.stateOf, FetchRes.forgetSt]

/- ## Pagination engine lemmas -/

theorem processPage_mkResp (p n : Int) (extra : List (String × JVal)) (recs : List JVal) :
    processPage (mkResp p n extra recs) = .ok (recs, .num p, .num n) := rfl

theorem fetchLoop_stop {σ : Type}
    (getPage : List (String × JVal) → σ → Except PyErr (JVal × σ))
    (fuel : Nat) (args : List (String × JVal)) (st : σ) (acc : List JVal)
    (pgs tp : JVal) (lr : Option JVal) (h : pyEq pgs tp = true) :
    fetchLoop getPage fuel args st acc pgs tp lr = .done acc lr st := by
  cases fuel <;> simp [fetchLoop, h]

theorem foldState_cons {σ : Type} (upd : List (String × JVal) → σ → σ)
    (a : List (String × JVal)) (l : List (List (String × JVal))) (st : σ) :
    foldState upd (a :: l) st = foldState upd l (upd a st) := rfl

theorem foldState_const {σ : Type} (l : List (List (String × JVal))) (st : σ) :
    foldState (fun _ s => s) l st = st := by
  induction l generalizing st with
  | nil => rfl
  | cons a l ih => simpa [foldState_cons] using ih st

theorem foldState_record (l tr : List (List (String × JVal))) :
    foldState (fun a s => s ++ [a]) l tr = tr ++ l := by
  induction l generalizing tr with
  | nil => simp [foldState]
  | cons a l ih => simp [foldState_cons, ih]

theorem tailRecs_cons (pd : PagesData) (k : Nat)
    (pg : List (String × JVal) × List JVal) (h1 : 1 ≤ k)
    (hpg : pd[k - 1]? = some pg) :
    tailRecs pd k = pg.2 ++ tailRecs pd (k + 1) := by
  have hk1 : k - 1 < pd.length := (List.getElem?_eq_some_iff.mp hpg).1
  have hget : pd[k - 1] = pg := by
    have := List.getElem?_eq_getElem hk1
    rw [hpg] at this
    exact (Option.some_inj.mp this).symm
  have hdrop : pd.drop (k - 1) = pg :: pd.drop k := by
    have := List.drop_eq_getElem_cons hk1
    rw [hget] at this
    have hke : k - 1 + 1 = k := by omega
    rw [hke] at this
    exact this
  simp [tailRecs, hdrop]

theorem tailReqs_step (args : List (String × JVal)) (k n : Nat)
    (hkn : k < n) :
    tailReqs args k n =
      args :: tailReqs (setArg args "page" (.num ((k : Int) + 1))) (k + 1) n := by
  have hn : n - k = (n - (k + 1)) + 1 := by omega
  have hc : ((k + 1 : Nat) : Int) = (k : Int) + 1 := by push_cast; ring
  rw [tailReqs, hn, List.range'_succ, tailReqs]
  simp only [List.map_cons]
  rw [hc]
  congr 2
  refine List.map_congr_left ?_
  intro j _
  rw [setArg_setArg]

theorem fetchLoop_wf {σ : Type} (pd : PagesData)
    (getPage : List (String × JVal) → σ → Except PyErr (JVal × σ))
    (upd : List (String × JVal) → σ → σ)
    (h : ∀ a s, getPage a s = .ok (apiOf pd a, upd a s)) :
    ∀ (fuel k : Nat) (args : List (String × JVal)) (st : σ) (acc : List JVal)
      (pgs tp : JVal) (lr : Option JVal),
      1 ≤ k → k ≤ pd.length → pd.length - k < fuel →
      pageIdxNat args = k → pyEq pgs tp = false →
      fetchLoop getPage fuel args st acc pgs tp lr =
        .done (acc ++ tailRecs pd k) (some (apiOfIdx pd pd.length))
          (foldState upd (tailReqs args k pd.length) st) := by
  intro fuel
  induction fuel with
  | zero => intro k args st acc pgs tp lr h1 h2 h3 h4 h5; omega
  | succ f ih =>
    intro k args st acc pgs tp lr h1 h2 h3 h4 h5
    have hk1 : k - 1 < pd.length := by omega
    have hpg : pd[k - 1]? = some pd[k - 1] := List.getElem?_eq_getElem hk1
    have hresp : apiOf pd args
        = mkResp (k : Int) (pd.length : Int) pd[k - 1].1 pd[k - 1].2 := by
      simp [apiOf, h4, apiOfIdx, hpg]
    simp only [fetchLoop, h5, Bool.false_eq_true, if_false]
    rw [h args st, hresp]
    simp only [processPage_mkResp]
    have hint : pyToInt (.num (k : Int)) = .ok (k : Int) := rfl
    simp only [pyToInt]
    by_cases hkN : k = pd.length
    · rw [fetchLoop_stop getPage f _ _ _ _ _ _ (by simp [pyEq, hkN])]
      subst hkN
      have htail : tailRecs pd pd.length = pd[pd.length - 1].2 := by
        have hdrop := List.drop_eq_getElem_cons hk1
        have hke : pd.length - 1 + 1 = pd.length := by omega
        rw [hke] at hdrop
        simp [tailRecs, hdrop, List.drop_length]
      have hlastidx : apiOfIdx pd pd.length
          = mkResp (pd.length : Int) (pd.length : Int)
              pd[pd.length - 1].1 pd[pd.length - 1].2 := by
        simp [apiOfIdx, hpg]
      have hreqs : tailReqs args pd.length pd.length = [args] := by
        rw [tailReqs]
        simp
      rw [htail, hlastidx, hreqs]
      rfl
    · have hne : pyEq (.num (pd.length : Int)) (.num (k : Int)) = false := by
        simp only [pyEq, beq_eq_false_iff_ne, ne_eq, Nat.cast_inj]
        exact fun hh => hkN hh.symm
      have harg : pageIdxNat (setArg args "page" (.num ((k : Int) + 1))) = k + 1 := by
        simp [pageIdxNat, lookupField_setArg_self]
      have hrec := ih (k + 1) (setArg args "page" (.num ((k : Int) + 1)))
        (upd args st) (acc ++ pd[k - 1].2) (.num (pd.length : Int))
        (.num (k : Int)) (some (mkResp (k : Int) (pd.length : Int)
          pd[k - 1].1 pd[k - 1].2))
        (by omega) (by omega) (by omega) harg hne
      rw [hrec]
      have htail : tailRecs pd k = pd[k - 1].2 ++ tailRecs pd (k + 1) :=
        tailRecs_cons pd k pd[k - 1] h1 hpg
      have hreqs := tailReqs_step args k pd.length (by omega)
      rw [htail, hreqs, foldState_cons]
      simp [List.append_assoc]

theorem fetchWith_wf {σ : Type} (pd : PagesData)
    (getPage : List (String × JVal) → σ → Except PyErr (JVal × σ))
    (upd : List (String × JVal) → σ → σ)
    (h : ∀ a s, getPage a s = .ok (apiOf pd a, upd a s))
    (hlen : 1 ≤ pd.length) (fuel : Nat) (hfuel : pd.length ≤ fuel)
    (args0 : List (String × JVal)) (hpg : lookupField args0 "page" = none)
    (st : σ) :
    fetchWith getPage fuel args0 st =
      match fetchPost (tailRecs pd 1) (some (apiOfIdx pd pd.length)) with
      | .ok (res, lu) =>
          .ok res lu (foldState upd (tailReqs (fetchArgs1 args0) 1 pd.length) st)
      | .error e =>
          .err e (foldState upd (tailReqs (fetchArgs1 args0) 1 pd.length) st) := by
  have hpg1 : lookupField (fetchArgs1 args0) "page" = none := by
    rw [fetchArgs1, lookupField_setArg_ne _ _ _ _ (by decide),
      lookupField_setArg_ne _ _ _ _ (by decide), hpg]
  have hidx : pageIdxNat (fetchArgs1 args0) = 1 := by
    simp [pageIdxNat, hpg1]
  have hloop := fetchLoop_wf pd getPage upd h fuel 1 (fetchArgs1 args0) st []
    (.num 0) (.num 1) none (by omega) hlen (by omega) hidx (by decide)
  rw [fetchWith, hloop]
  simp only [List.nil_append]

theorem luTry_plain (p n : Int) (recs : List JVal) :
    luTry (mkResp p n [] recs) = .error .keyError := rfl

theorem luTry_lastupdated (p n : Int) (s : String) (recs : List JVal) :
    luTry (mkResp p n [("lastupdated", .str s)] recs) = strptimeJ (.str s) := rfl

theorem tailRecs_plain (recss : List (List JVal)) :
    tailRecs (plainPages recss) 1 = recss.flatten := by
  simp [tailRecs, plainPages, List.map_map]

theorem apiOfIdx_plain_last (recss : List (List JVal)) (r : List JVal)
    (hg : recss[recss.length - 1]? = some r) :
    apiOfIdx (plainPages recss) (plainPages recss).length
      = mkResp ((plainPages recss).length : Int)
          ((plainPages recss).length : Int) [] r := by
  have hplen : (plainPages recss).length = recss.length := List.length_map _ _
  have hm : (plainPages recss)[(plainPages recss).length - 1]?
      = some ([], r) := by
    rw [hplen, plainPages, List.getElem?_map, hg]
    rfl
  rw [apiOfIdx, hm]

/-- Claim C1: over a well-formed multi-page API — every page a
two-element `[envelope, records]` response whose envelope carries the
consistent `page`/`pages` numbers — `fetch` aggregates exactly the
concatenation of every page's records in page order (given that the
post-loop id-trimming leaves them unchanged, i.e. any `id` fields are
already-clean strings), with no duplication and no omission. -/
theorem fetch_returns_all_pages_in_order {σ : Type} (recss : List (List JVal))
    (getPage : List (String × JVal) → σ → Except PyErr (JVal × σ)) (st : σ)
    (h : ∀ a s, getPage a s = .ok (apiOf (plainPages recss) a, s))
    (hlen : 1 ≤ recss.length) (fuel : Nat) (hfuel : recss.length ≤ fuel)
    (args0 : List (String × JVal)) (hpg : lookupField args0 "page" = none)
    (htrim : trimRecords recss.flatten = .ok recss.flatten) :
    fetchWith getPage fuel args0 st = .ok recss.flatten none st := by
  have hplen : (plainPages recss).length = recss.length := List.length_map _ _
  have hw := fetchWith_wf (plainPages recss) getPage (fun _ s => s) h
    (by rw [hplen]; exact hlen) fuel (by rw [hplen]; exact hfuel) args0 hpg st
  have hidx : recss.length - 1 < recss.length := by omega
  obtain ⟨r, hg⟩ : ∃ r, recss[recss.length - 1]? = some r :=
    ⟨_, List.getElem?_eq_getElem hidx⟩
  have hpost : fetchPost recss.flatten
      (some (mkResp ((plainPages recss).length : Int)
        ((plainPages recss).length : Int) [] r)) = .ok (recss.flatten, none) := by
    simp only [fetchPost, htrim, luTry_plain]
  rw [hw, tailRecs_plain, apiOfIdx_plain_last recss r hg, hpost, foldState_const]

/-- Witness for C1: the spec's synthetic 3-page API with record lists of
sizes 2, 2 and 1 yields exactly those 5 records, in page order. -/
theorem fetch_returns_all_pages_in_order_witness :
    fetchWith
        (pureOracle (plainPages
          [[JVal.str "r1", JVal.str "r2"], [JVal.str "r3", JVal.str "r4"],
            [JVal.str "r5"]]))
        3 [] ()
      = .ok [JVal.str "r1", JVal.str "r2", JVal.str "r3", JVal.str "r4",
          JVal.str "r5"] none () :=
  fetch_returns_all_pages_in_order
    [[JVal.str "r1", JVal.str "r2"], [JVal.str "r3", JVal.str "r4"],
      [JVal.str "r5"]]
    (pureOracle (plainPages
      [[JVal.str "r1", JVal.str "r2"], [JVal.str "r3", JVal.str "r4"],
        [JVal.str "r5"]]))
    () (fun _ _ => rfl) (by decide) 3 (by decide) [] rfl rfl

/- ## Claim C6: the `lastupdated` field of the final page -/

/-- Claim C6 counterexample: a final-page envelope whose `lastupdated`
value is not a parseable `YYYY-MM-DD` date does not leave the field unset
— `strptime` raises `ValueError`, which `except KeyError` does not catch,
so the whole fetch fails instead of returning the aggregated records. -/
theorem fetch_malformed_lastupdated_cex :
    fetchWith (pureOracle [([("lastupdated", JVal.str "not a date")], [])])
      1 [] () = .err .valueError () := rfl

/-- Claim C6 amended: a well-formed `lastupdated` (`YYYY-MM-DD`) in the
final page's envelope yields an aggregated result whose last-updated
value is the parsed date; an absent field leaves it unset and the fetch
still succeeds; but a malformed value makes the fetch fail with
`ValueError` rather than leaving the field unset. -/
theorem fetch_lastupdated_spec {σ : Type} (recs : List JVal) (s : String)
    (d : DateYmd) (st : σ) (args0 : List (String × JVal)) (fuel : Nat)
    (hf : 1 ≤ fuel) (hpg : lookupField args0 "page" = none)
    (htrim : trimRecords recs = .ok recs) :
    (parseYmd s = some d →
      fetchWith (pureOracle [([("lastupdated", .str s)], recs)]) fuel args0 st
        = .ok recs (some d) st)
    ∧ fetchWith (pureOracle [([], recs)]) fuel args0 st = .ok recs none st
    ∧ (parseYmd s = none →
      fetchWith (pureOracle [([("lastupdated", .str s)], recs)]) fuel args0 st
        = .err .valueError st) := by
  have hw1 := fetchWith_wf [([("lastupdated", JVal.str s)], recs)]
    (pureOracle [([("lastupdated", JVal.str s)], recs)]) (fun _ s2 => s2)
    (fun _ _ => rfl) (by simp) fuel (by simpa using hf) args0 hpg st
  have hw2 := fetchWith_wf [([], recs)] (pureOracle [([], recs)])
    (fun _ s2 => s2) (fun _ _ => rfl) (by simp) fuel (by simpa using hf) args0 hpg st
  refine ⟨?_, ?_, ?_⟩
  · intro hp
    rw [hw1]
    simp [tailRecs, apiOfIdx, fetchPost, htrim, luTry_lastupdated, strptimeJ,
      hp, foldState_const]
  · rw [hw2]
    simp [tailRecs, apiOfIdx, fetchPost, htrim, luTry_plain, foldState_const]
  · intro hp
    rw [hw1]
    simp [tailRecs, apiOfIdx, fetchPost, htrim, luTry_lastupdated, strptimeJ,
      hp, foldState_const]

/-- Witness for C6 (amended): `lastupdated: "2020-03-15"` parses to that
date; an envelope without the field leaves last-updated unset; the
three-digit year `"999-03-15"` is malformed for `%Y` (exactly four
digits) and aborts the fetch with `ValueError`; the space-padded day
`"2020-03- 5"` is accepted by `%d` and parses to March 5. -/
theorem fetch_lastupdated_spec_witness :
    fetchWith (pureOracle [([("lastupdated", JVal.str "2020-03-15")],
        [JVal.str "r"])]) 1 [] ()
      = .ok [JVal.str "r"] (some ⟨2020, 3, 15⟩) ()
    ∧ fetchWith (pureOracle [([], [JVal.str "r"])]) 1 [] ()
      = .ok [JVal.str "r"] none ()
    ∧ fetchWith (pureOracle [([("lastupdated", JVal.str "999-03-15")],
        [JVal.str "r"])]) 1 [] ()
      = .err .valueError ()
    ∧ fetchWith (pureOracle [([("lastupdated", JVal.str "2020-03- 5")],
        [JVal.str "r"])]) 1 [] ()
      = .ok [JVal.str "r"] (some ⟨2020, 3, 5⟩) () :=
  ⟨(fetch_lastupdated_spec [JVal.str "r"] "2020-03-15" ⟨2020, 3, 15⟩ () []
      1 (by decide) rfl rfl).1 rfl,
   (fetch_lastupdated_spec [JVal.str "r"] "2020-03-15" ⟨2020, 3, 15⟩ () []
      1 (by decide) rfl rfl).2.1,
   (fetch_lastupdated_spec [JVal.str "r"] "999-03-15" ⟨2020, 3, 15⟩ () []
      1 (by decide) rfl rfl).2.2 rfl,
   (fetch_lastupdated_spec [JVal.str "r"] "2020-03- 5" ⟨2020, 3, 5⟩ () []
      1 (by decide) rfl rfl).1 rfl⟩

/- ## Claim C8: request parameters of the pagination walk -/

/-- Claim C8: over a well-formed API, the requests a fetch walk issues
are exactly `tailReqs (fetchArgs1 args0) 1 N` (observed through a
tracing page getter), and every one of those requests carries
`format = "json"` and `per_page = 1000` — the fixed values installed by
`fetch`, overriding any caller-supplied ones — together with all other
caller-supplied parameters unchanged, while every request from the
second onward additionally carries `page = <position + 1>`. -/
theorem fetch_request_params_spec (pd : PagesData)
    (args0 : List (String × JVal)) (fuel : Nat)
    (hlen : 1 ≤ pd.length) (hfuel : pd.length ≤ fuel)
    (hpg : lookupField args0 "page" = none) :
    (fetchWith (traceOracle pd) fuel args0 []).stateOf
      = tailReqs (fetchArgs1 args0) 1 pd.length
    ∧ (∀ (i : Nat) (a2 : List (String × JVal)),
        (tailReqs (fetchArgs1 args0) 1 pd.length)[i]? = some a2 →
        lookupField a2 "format" = some (.str "json")
        ∧ lookupField a2 "per_page" = some (.num PER_PAGE)
        ∧ (∀ k2, k2 ≠ "format" → k2 ≠ "per_page" → k2 ≠ "page" →
            lookupField a2 k2 = lookupField args0 k2)
        ∧ (1 ≤ i → lookupField a2 "page" = some (.num ((i : Int) + 1)))) := by
  constructor
  · have hw := fetchWith_wf pd (traceOracle pd) (fun a2 tr => tr ++ [a2])
      (fun _ _ => rfl) hlen fuel hfuel args0 hpg []
    rw [hw]
    cases hp : fetchPost (tailRecs pd 1) (some (apiOfIdx pd pd.length)) with
    | ok p =>
      obtain ⟨res, lu⟩ := p
      simp [FetchRes.stateOf, foldState_record]
    | error e =>
      simp [FetchRes.stateOf, foldState_record]
  · intro i a2 hia
    have hfmt1 : lookupField (fetchArgs1 args0) "format" = some (.str "json") := by
      rw [fetchArgs1, lookupField_setArg_ne _ _ _ _ (by decide),
        lookupField_setArg_self]
    have hpp1 : lookupField (fetchArgs1 args0) "per_page" = some (.num PER_PAGE) :=
      lookupField_setArg_self _ _ _
    have hoth1 : ∀ k2, k2 ≠ "format" → k2 ≠ "per_page" →
        lookupField (fetchArgs1 args0) k2 = lookupField args0 k2 := by
      intro k2 h1 h2
      rw [fetchArgs1, lookupField_setArg_ne _ _ _ _ h2,
        lookupField_setArg_ne _ _ _ _ h1]
    cases i with
    | zero =>
      rw [tailReqs] at hia
      simp only [List.getElem?_cons_zero, Option.some_inj] at hia
      subst hia
      refine ⟨hfmt1, hpp1, fun k2 h1 h2 _ => hoth1 k2 h1 h2, fun h => by omega⟩
    | succ m =>
      rw [tailReqs] at hia
      simp only [List.getElem?_cons_succ, List.getElem?_map] at hia
      cases hr : (List.range' 2 (pd.length - 1))[m]? with
      | none => rw [hr] at hia; cases hia
      | some j =>
        rw [hr] at hia
        have hj : j = 2 + m := by
          have hm : m < (List.range' 2 (pd.length - 1)).length :=
            (List.getElem?_eq_some_iff.mp hr).1
          rw [List.length_range'] at hm
          have := List.getElem?_range' 2 1 hm
          rw [hr] at this
          simpa using this
        simp only [Option.map_some', Option.some_inj] at hia
        subst hia
        subst hj
        refine ⟨?_, ?_, ?_, ?_⟩
        · rw [lookupField_setArg_ne _ _ _ _ (by decide)]
          exact hfmt1
        · rw [lookupField_setArg_ne _ _ _ _ (by decide)]
          exact hpp1
        · intro k2 h1 h2 h3
          rw [lookupField_setArg_ne _ _ _ _ h3]
          exact hoth1 k2 h1 h2
        · intro _
          rw [lookupField_setArg_self]
          congr 2
          push_cast
          ring

/-- Witness for C8: a two-page walk over caller parameter
`country = "all"` issues exactly the two recorded requests; the second
request carries `format`, `per_page` and `page = 2`. -/
theorem fetch_request_params_spec_witness :
    (fetchWith (traceOracle (plainPages [[JVal.str "a"], [JVal.str "b"]])) 2
        [("country", JVal.str "all")] []).stateOf
      = tailReqs (fetchArgs1 [("country", JVal.str "all")]) 1 2
    ∧ lookupField (setArg (fetchArgs1 [("country", JVal.str "all")]) "page"
        (.num 2)) "format" = some (.str "json")
    ∧ lookupField (setArg (fetchArgs1 [("country", JVal.str "all")]) "page"
        (.num 2)) "page" = some (.num 2) :=
  ⟨(fetch_request_params_spec (plainPages [[JVal.str "a"], [JVal.str "b"]])
      [("country", JVal.str "all")] 2 (by decide) (by decide) rfl).1,
   ((fetch_request_params_spec (plainPages [[JVal.str "a"], [JVal.str "b"]])
      [("country", JVal.str "all")] 2 (by decide) (by decide) rfl).2 1
      (setArg (fetchArgs1 [("country", JVal.str "all")]) "page" (.num 2))
      rfl).1,
   ((fetch_request_params_spec (plainPages [[JVal.str "a"], [JVal.str "b"]])
      [("country", JVal.str "all")] 2 (by decide) (by decide) rfl).2 1
      (setArg (fetchArgs1 [("country", JVal.str "all")]) "page" (.num 2))
      rfl).2.2.2 (by decide)⟩

/- ## Claim C10: trimming forces string ids -/

theorem exceptBind_ok {α β : Type} (a : α) (f : α → Except PyErr β) :
    (Except.ok a >>= f) = f a := rfl

theorem exceptBind_error {α β : Type} (e : PyErr) (f : α → Except PyErr β) :
    ((Except.error e : Except PyErr α) >>= f) = Except.error e := rfl

theorem exceptPure {α : Type} (a : α) :
    (pure a : Except PyErr α) = Except.ok a := rfl

theorem exceptMap_ok {α β : Type} (f : α → β) (a : α) :
    (f <$> (Except.ok a : Except PyErr α)) = Except.ok (f a) := rfl

theorem exceptMap_error {α β : Type} (f : α → β) (e : PyErr) :
    (f <$> (Except.error e : Except PyErr α)) = Except.error e := rfl

theorem trimRecord_ok_id (r r2 : JVal) (h : trimRecord r = .ok r2) :
    idStringOk r2 = true := by
  cases r with
  | null => simp [trimRecord, pyContains, exceptBind_error] at h
  | bool b => simp [trimRecord, pyContains, exceptBind_error] at h
  | num n => simp [trimRecord, pyContains, exceptBind_error] at h
  | str s =>
    simp only [trimRecord, pyContains, exceptBind_ok, exceptPure] at h
    split at h
    · simp [pySubStr, exceptBind_error] at h
    · cases h
      rfl
  | arr xs =>
    simp only [trimRecord, pyContains, exceptBind_ok, exceptPure] at h
    split at h
    · simp [pySubStr, exceptBind_error] at h
    · cases h
      rfl
  | obj fs =>
    simp only [trimRecord, pyContains, exceptBind_ok, exceptPure] at h
    cases hl : lookupField fs "id" with
    | none =>
      rw [hl] at h
      simp at h
      subst h
      simp [idStringOk, hl]
    | some v =>
      rw [hl] at h
      simp only [Option.isSome_some, if_true, pySubStr, hl, exceptBind_ok] at h
      cases v with
      | str s =>
        simp at h
        subst h
        simp [idStringOk, lookupField_setArg_self]
      | null => simp at h
      | bool b => simp at h
      | num n => simp at h
      | arr xs => simp at h
      | obj fs2 => simp at h

theorem trimRecords_ok_ids (l l2 : List JVal) (h : trimRecords l = .ok l2) :
    ∀ r ∈ l2, idStringOk r = true := by
  induction l generalizing l2 with
  | nil =>
    simp [trimRecords] at h
    subst h
    intro r hr
    cases hr
  | cons a l ih =>
    simp only [trimRecords] at h
    cases ha : trimRecord a with
    | error e => rw [ha] at h; simp [exceptBind_error] at h
    | ok a2 =>
      rw [ha] at h
      simp only [exceptBind_ok] at h
      cases hl : trimRecords l with
      | error e => rw [hl] at h; simp [exceptBind_error, exceptMap_error] at h
      | ok l3 =>
        rw [hl] at h
        simp only [exceptBind_ok, exceptMap_ok, exceptPure] at h
        cases h
        intro r hr
        cases hr with
        | head => exact trimRecord_ok_id a _ ha
        | tail _ hm => exact ih l3 hl _ hm

theorem fetchPost_ok_trim (acc : List JVal) (lr : Option JVal)
    (res : List JVal) (lu : Option DateYmd)
    (h : fetchPost acc lr = .ok (res, lu)) : trimRecords acc = .ok res := by
  cases ht : trimRecords acc with
  | error e => simp [fetchPost, ht] at h
  | ok res2 =>
    cases lr with
    | none => simp [fetchPost, ht] at h
    | some resp =>
      cases hl : luTry resp with
      | ok d =>
        simp [fetchPost, ht, hl] at h
        rw [h.1]
      | error e =>
        cases e with
        | keyError =>
          simp [fetchPost, ht, hl] at h
          rw [h.1]
        | indexError => simp [fetchPost, ht, hl] at h
        | typeError => simp [fetchPost, ht, hl] at h
        | valueError => simp [fetchPost, ht, hl] at h
        | attributeError => simp [fetchPost, ht, hl] at h
        | ioError => simp [fetchPost, ht, hl] at h
        | eofError => simp [fetchPost, ht, hl] at h
        | unpicklingError => simp [fetchPost, ht, hl] at h
        | nameError => simp [fetchPost, ht, hl] at h
        | runtimeError m => simp [fetchPost, ht, hl] at h

/-- Claim C10: `fetch` returns normally only with records whose `id`
field, wherever present, is a string — the post-loop trimming applies
`.strip()` unconditionally to every present `id`, so every record of a
successful result satisfies `idStringOk`; and a record whose `id` holds a
number makes the whole fetch fail with `AttributeError` even though every
page was retrieved successfully, rather than returning the record
untrimmed. -/
theorem fetch_id_strings_spec :
    (∀ (σ : Type) (getPage : List (String × JVal) → σ → Except PyErr (JVal × σ))
        (fuel : Nat) (args0 : List (String × JVal)) (st : σ)
        (res : List JVal) (lu : Option DateYmd) (st2 : σ),
        fetchWith getPage fuel args0 st = .ok res lu st2 →
        ∀ r ∈ res, idStringOk r = true)
    ∧ fetchWith (pureOracle (plainPages [[JVal.obj [("id", JVal.num 5)]]]))
        1 [] () = .err .attributeError () := by
  constructor
  · intro σ getPage fuel args0 st res lu st2 hok r hr
    rw [fetchWith] at hok
    cases hloop : fetchLoop getPage fuel (fetchArgs1 args0) st []
        (.num 0) (.num 1) none with
    | diverge s3 => rw [hloop] at hok; cases hok
    | err e s3 => rw [hloop] at hok; cases hok
    | done acc lr s3 =>
      rw [hloop] at hok
      cases hp : fetchPost acc lr with
      | error e => simp [hp] at hok
      | ok p =>
        obtain ⟨res2, lu2⟩ := p
        simp [hp] at hok
        have htr := fetchPost_ok_trim acc lr res2 lu2 hp
        rw [hok.1] at htr
        exact trimRecords_ok_ids acc res htr r hr
  · rfl

/-- Witness for C10: a successful fetch whose single record carries a
string `id` satisfies the string-id property on its result. -/
theorem fetch_id_strings_spec_witness :
    idStringOk (JVal.obj [("id", JVal.str "X")]) = true :=
  fetch_id_strings_spec.1 Unit
    (pureOracle (plainPages [[JVal.obj [("id", JVal.str "X")]]]))
    1 [] () [JVal.obj [("id", JVal.str "X")]] none () rfl
    (JVal.obj [("id", JVal.str "X")]) (List.mem_singleton.mpr rfl)

/- ## Claim C3: anomalous envelopes (missing page/pages) -/

/-- Claim C3 counterexample: an envelope lacking `page`/`pages` whose
`message[0]` is not a mapping makes the fetch fail with `TypeError` (from
`format(**message)`), which is neither the API error nor the
unexpected-response error with a dump that the claim promises. -/
theorem fetch_anomalous_nonmapping_cex :
    fetchWith (constOracle (JVal.arr
        [JVal.obj [("message", JVal.arr [JVal.num 5])]])) 1 [] ()
      = .err .typeError () := rfl

theorem tryMain_missing (fs : List (String × JVal)) (recs : List JVal)
    (hp : lookupField fs "page" = none ∨ lookupField fs "pages" = none) :
    tryMain (.arr [.obj fs, .arr recs]) = .error .keyError := by
  rcases hp with hp | hp
  · simp [tryMain, pySubInt, pyIter, pySubStr, hp, exceptBind_ok,
      exceptBind_error]
  · cases hq : lookupField fs "page" with
    | none =>
      simp [tryMain, pySubInt, pyIter, pySubStr, hq, exceptBind_ok,
        exceptBind_error]
    | some v =>
      simp [tryMain, pySubInt, pyIter, pySubStr, hq, hp, exceptBind_ok,
        exceptBind_error]

theorem fetchWith_const_err {σ : Type} (v : JVal) (e : PyErr) (fuel : Nat)
    (hf : 1 ≤ fuel) (args0 : List (String × JVal)) (st : σ)
    (hp : processPage v = .error e) :
    fetchWith (constOracle v) fuel args0 st = .err e st := by
  cases fuel with
  | zero => omega
  | succ f => simp [fetchWith, fetchLoop, constOracle, pyEq, hp]

theorem processPage_anomalous (fs : List (String × JVal)) (recs : List JVal)
    (hp : lookupField fs "page" = none ∨ lookupField fs "pages" = none) :
    processPage (.arr [.obj fs, .arr recs]) =
      match tryMessage (.arr [.obj fs, .arr recs]) with
      | .ok msg => .error (.runtimeError msg)
      | .error e2 =>
        if isIdxOrKey e2 then
          .error (.runtimeError ("Got unexpected response:\n"
            ++ pformatVal (.arr [.obj fs, .arr recs])))
        else .error e2 := by
  rw [processPage, tryMain_missing fs recs hp]
  rfl

/-- Claim C3 amended: for a page response `[envelope, records]` whose
envelope lacks `page` (or `pages`): if the envelope has no `message`, or
`message` is an empty sequence, or its first element is a mapping missing
one of `id`/`key`/`value`, the fetch fails with the unexpected-response
error carrying a dump of the offending response; if `message[0]` is a
mapping with all of `id`, `key` and `value`, the fetch fails with the API
error formatted from exactly those three fields; but if `message[0]` is
not a mapping, the fetch fails with a `TypeError` instead of the
unexpected-response error. -/
theorem fetch_anomalous_envelope_spec {σ : Type} (fs : List (String × JVal))
    (recs : List JVal) (st : σ) (fuel : Nat) (args0 : List (String × JVal))
    (hf : 1 ≤ fuel)
    (hp : lookupField fs "page" = none ∨ lookupField fs "pages" = none) :
    (lookupField fs "message" = none →
      fetchWith (constOracle (.arr [.obj fs, .arr recs])) fuel args0 st
        = .err (.runtimeError ("Got unexpected response:\n"
            ++ pformatVal (.arr [.obj fs, .arr recs]))) st)
    ∧ (∀ mf rest iv kv vv,
        lookupField fs "message" = some (.arr (.obj mf :: rest)) →
        lookupField mf "id" = some iv →
        lookupField mf "key" = some kv →
        lookupField mf "value" = some vv →
        fetchWith (constOracle (.arr [.obj fs, .arr recs])) fuel args0 st
          = .err (.runtimeError ("Got error " ++ pyStr iv ++ " (" ++ pyStr kv
              ++ "): " ++ pyStr vv)) st)
    ∧ (∀ m0 rest,
        lookupField fs "message" = some (.arr (m0 :: rest)) →
        isObjJ m0 = false →
        fetchWith (constOracle (.arr [.obj fs, .arr recs])) fuel args0 st
          = .err .typeError st)
    ∧ (∀ mf rest,
        lookupField fs "message" = some (.arr (.obj mf :: rest)) →
        (lookupField mf "id" = none ∨ lookupField mf "key" = none
          ∨ lookupField mf "value" = none) →
        fetchWith (constOracle (.arr [.obj fs, .arr recs])) fuel args0 st
          = .err (.runtimeError ("Got unexpected response:\n"
              ++ pformatVal (.arr [.obj fs, .arr recs]))) st)
    ∧ (lookupField fs "message" = some (.arr []) →
        fetchWith (constOracle (.arr [.obj fs, .arr recs])) fuel args0 st
          = .err (.runtimeError ("Got unexpected response:\n"
              ++ pformatVal (.arr [.obj fs, .arr recs]))) st) := by
  refine ⟨?_, ?_, ?_, ?_, ?_⟩
  · intro hm
    refine fetchWith_const_err _ _ fuel hf args0 st ?_
    rw [processPage_anomalous fs recs hp]
    have hmsg : tryMessage (.arr [.obj fs, .arr recs]) = .error .keyError := by
      simp [tryMessage, pySubInt, pySubStr, hm, exceptBind_ok,
        exceptBind_error]
    rw [hmsg]
    rfl
  · intro mf rest iv kv vv hm hid hkey hval
    refine fetchWith_const_err _ _ fuel hf args0 st ?_
    rw [processPage_anomalous fs recs hp]
    have hmsg : tryMessage (.arr [.obj fs, .arr recs])
        = .ok ("Got error " ++ pyStr iv ++ " (" ++ pyStr kv ++ "): "
            ++ pyStr vv) := by
      simp [tryMessage, pySubInt, pySubStr, hm, hid, hkey, hval,
        exceptBind_ok]
    rw [hmsg]
  · intro m0 rest hm hobj
    refine fetchWith_const_err _ _ fuel hf args0 st ?_
    rw [processPage_anomalous fs recs hp]
    have hmsg : tryMessage (.arr [.obj fs, .arr recs]) = .error .typeError := by
      cases m0 with
      | obj mf => simp [isObjJ] at hobj
      | null => simp [tryMessage, pySubInt, pySubStr, hm, exceptBind_ok]
      | bool b => simp [tryMessage, pySubInt, pySubStr, hm, exceptBind_ok]
      | num n => simp [tryMessage, pySubInt, pySubStr, hm, exceptBind_ok]
      | str s => simp [tryMessage, pySubInt, pySubStr, hm, exceptBind_ok]
      | arr xs => simp [tryMessage, pySubInt, pySubStr, hm, exceptBind_ok]
    rw [hmsg]
    rfl
  · intro mf rest hm hmiss
    refine fetchWith_const_err _ _ fuel hf args0 st ?_
    rw [processPage_anomalous fs recs hp]
    have hmsg : tryMessage (.arr [.obj fs, .arr recs]) = .error .keyError := by
      rcases hmiss with h1 | h2 | h3
      · simp [tryMessage, pySubInt, pySubStr, hm, h1, exceptBind_ok,
          exceptBind_error]
      · cases hid : lookupField mf "id" with
        | none =>
          simp [tryMessage, pySubInt, pySubStr, hm, hid, exceptBind_ok,
            exceptBind_error]
        | some iv =>
          simp [tryMessage, pySubInt, pySubStr, hm, hid, h2, exceptBind_ok,
            exceptBind_error]
      · cases hid : lookupField mf "id" with
        | none =>
          simp [tryMessage, pySubInt, pySubStr, hm, hid, exceptBind_ok,
            exceptBind_error]
        | some iv =>
          cases hkey : lookupField mf "key" with
          | none =>
            simp [tryMessage, pySubInt, pySubStr, hm, hid, hkey,
              exceptBind_ok, exceptBind_error]
          | some kv =>
            simp [tryMessage, pySubInt, pySubStr, hm, hid, hkey, h3,
              exceptBind_ok, exceptBind_error]
    rw [hmsg]
    rfl
  · intro hm
    refine fetchWith_const_err _ _ fuel hf args0 st ?_
    rw [processPage_anomalous fs recs hp]
    have hmsg : tryMessage (.arr [.obj fs, .arr recs])
        = .error .indexError := by
      simp [tryMessage, pySubInt, pySubStr, hm, exceptBind_ok,
        exceptBind_error]
    rw [hmsg]
    rfl

/-- Witness for C3 (amended): the spec's synthetic error envelope
`{"message": [{"id": "120", "key": "Invalid value", "value": "bad param"}]}`
makes the fetch fail with the API error carrying exactly those three
fields. -/
theorem fetch_anomalous_envelope_spec_witness :
    fetchWith (constOracle (JVal.arr [JVal.obj [("message", JVal.arr
        [JVal.obj [("id", JVal.str "120"), ("key", JVal.str "Invalid value"),
          ("value", JVal.str "bad param")]])], JVal.arr []])) 1 [] ()
      = .err (.runtimeError ("Got error " ++ pyStr (JVal.str "120") ++ " ("
          ++ pyStr (JVal.str "Invalid value") ++ "): "
          ++ pyStr (JVal.str "bad param"))) () :=
  (fetch_anomalous_envelope_spec
      [("message", JVal.arr [JVal.obj [("id", JVal.str "120"),
        ("key", JVal.str "Invalid value"), ("value", JVal.str "bad param")]])]
      [] () 1 [] (by decide) (Or.inl rfl)).2.1
    [("id", JVal.str "120"), ("key", JVal.str "Invalid value"),
      ("value", JVal.str "bad param")]
    [] (JVal.str "120") (JVal.str "Invalid value") (JVal.str "bad param")
    rfl rfl rfl rfl
